import Mathlib

/-!
Verification of the NEAT simplified ion-channel compiler
(`neat/channels/ionchannels_simplified.py`, with the batch driver
`neat/channels/writecppcode.py`).

The development shallowly embeds the channel class:

* sympy expressions become the inductive type `Neat.Expr` (rationals stand in
  for floats; transcendental functions are carried as uninterpreted function
  applications evaluated through an interpretation parameter);
* `IonChannelSimplified.__init__` becomes `Neat.construct`, a fallible
  function into `Except Neat.PyError Neat.Chan`, following the source's
  statement order (q10 assertion, kinetics normalization, concentration
  resolution, default parameters, lambdification);
* lambdified numpy closures become `Neat.Closure` values: an argument-name
  list plus a body expression; calling one with the wrong number of
  positional arguments is a `TypeError`, as for a Python lambda;
* the evaluation API (`computePOpen`, `computeVarinf`, `computeTauinf`,
  `computeDerivatives`, `computeLinear`, `computeLinSum`) is translated
  function by function;
* the `_func` singularity dispatcher and the relevant fragments of
  `writeCPPCode` are modelled separately below.
-/

namespace Neat

/-- Symbolic expressions, standing in for sympy expression trees.  Numeric
literals are rationals; `fn` is an uninterpreted unary function application
(`exp`, `sin`, ...) whose meaning is supplied at evaluation time. -/
inductive Expr where
  | const : ℚ → Expr
  | var : String → Expr
  | add : Expr → Expr → Expr
  | sub : Expr → Expr → Expr
  | neg : Expr → Expr
  | mul : Expr → Expr → Expr
  | div : Expr → Expr → Expr
  | pow : Expr → ℕ → Expr
  | fn : String → Expr → Expr
deriving DecidableEq, Repr, Inhabited

/-- Evaluate an expression under an interpretation `F` of the uninterpreted
function symbols and an environment `env` for the variables.  Division is
the total rational division (division by zero yields zero); the claims
settled here never rest on the value of a vanishing denominator. -/
def Expr.eval (F : String → ℚ → ℚ) (env : String → ℚ) : Expr → ℚ
  | .const q => q
  | .var s => env s
  | .add a b => a.eval F env + b.eval F env
  | .sub a b => a.eval F env - b.eval F env
  | .neg a => -(a.eval F env)
  | .mul a b => a.eval F env * b.eval F env
  | .div a b => a.eval F env / b.eval F env
  | .pow a n => (a.eval F env) ^ n
  | .fn f a => F f (a.eval F env)

/-- Variables occurring in an expression, with repetitions. -/
def Expr.vars : Expr → List String
  | .const _ => []
  | .var s => [s]
  | .add a b => a.vars ++ b.vars
  | .sub a b => a.vars ++ b.vars
  | .neg a => a.vars
  | .mul a b => a.vars ++ b.vars
  | .div a b => a.vars ++ b.vars
  | .pow a _ => a.vars
  | .fn _ a => a.vars

/-- The free symbols of an expression (sympy's `free_symbols`; the set is
modelled as a duplicate-free list). -/
def Expr.freeSymbols (e : Expr) : List String := e.vars.dedup

/-- Substitution of an expression for a symbol (sympy's `subs` on a
symbol). -/
def Expr.subs (x : String) (r : Expr) : Expr → Expr
  | .const q => .const q
  | .var s => if s = x then r else .var s
  | .add a b => .add (Expr.subs x r a) (Expr.subs x r b)
  | .sub a b => .sub (Expr.subs x r a) (Expr.subs x r b)
  | .neg a => .neg (Expr.subs x r a)
  | .mul a b => .mul (Expr.subs x r a) (Expr.subs x r b)
  | .div a b => .div (Expr.subs x r a) (Expr.subs x r b)
  | .pow a n => .pow (Expr.subs x r a) n
  | .fn f a => .fn f (Expr.subs x r a)

/-- Exact symbolic differentiation with respect to a symbol (sympy's
`diff`).  The derivative of an uninterpreted function `f` is carried as the
uninterpreted symbol `D ++ f`, composed through the chain rule. -/
def Expr.diff (x : String) : Expr → Expr
  | .const _ => .const 0
  | .var s => if s = x then .const 1 else .const 0
  | .add a b => .add (a.diff x) (b.diff x)
  | .sub a b => .sub (a.diff x) (b.diff x)
  | .neg a => .neg (a.diff x)
  | .mul a b => .add (.mul (a.diff x) b) (.mul a (b.diff x))
  | .div a b => .div (.sub (.mul (a.diff x) b) (.mul a (b.diff x))) (.mul b b)
  | .pow a n => .mul (.mul (.const (n : ℚ)) (.pow a (n - 1))) (a.diff x)
  | .fn f a => .mul (.fn ("D" ++ f) a) (a.diff x)

/-- Python exceptions that the translated code can raise. -/
inductive PyError where
  | keyError : String → PyError
  | attrError : String → PyError
  | nameError : String → PyError
  | typeError : PyError
  | assertionError : PyError
deriving DecidableEq, Repr, Inhabited

/-- The state-variable names a raised error mentions: a `KeyError` carries
its key, the other exceptions carry no variable name. -/
def PyError.names : PyError → List String
  | .keyError k => [k]
  | _ => []

/-- Default concentrations, `CONC_DICT` in the source. -/
def CONC_DICT : List (String × ℚ) := [("na", 10), ("k", mkRat 272 5), ("ca", mkRat 1 10000)]

/-- Default temperature, `TEMP_DEFAULT` in the source. -/
def TEMP_DEFAULT : ℚ := 36

/-- Default reversal potentials, `E_ION_DICT` in the source. -/
def E_ION_DICT : List (String × ℚ) := [("na", 50), ("k", -85), ("ca", 50)]

/-- The user-declared concentration attribute: either a dict with default
values or a set of ion names (source lines 140-142, 243-244). -/
inductive ConcDecl where
  | dict : List (String × ℚ) → ConcDecl
  | set : List String → ConcDecl
deriving DecidableEq, Repr, Inhabited

/-- A channel definition: the attributes a `define()` implementation may
set on the object before `__init__` normalizes them.  `none` models an
absent attribute. -/
structure ChanDef where
  p_open : Expr
  alpha : Option (List (String × Expr)) := none
  beta : Option (List (String × Expr)) := none
  varinf : Option (List (String × Expr)) := none
  tauinf : Option (List (String × Expr)) := none
  ion : String := ""
  conc : Option ConcDecl := none
  q10 : Expr := .const 1
  e : Option ℚ := none
  t : Option ℚ := none
deriving DecidableEq, Repr, Inhabited

/-- A lambdified sympy expression (`sp.lambdify(args, body)`): the list of
positional parameter names and the body. -/
structure Closure where
  params : List String
  body : Expr
deriving DecidableEq, Repr, Inhabited

/-- Calling a lambdified closure on a positional argument list.  As for a
Python lambda, an argument count different from the parameter count is a
`TypeError`. -/
def Closure.call (F : String → ℚ → ℚ) (cl : Closure) (argv : List ℚ) :
    Except PyError ℚ :=
  if argv.length = cl.params.length then
    .ok (cl.body.eval F (fun s => ((cl.params.zip argv).lookup s).getD 0))
  else
    .error .typeError

/-- Association-list lookup with a dummy default, used where the source
indexes a dict whose keys are present by construction. -/
def lookup0 (l : List (String × Expr)) (s : String) : Expr :=
  (l.lookup s).getD (.const 0)

/-- Rational-valued association-list lookup with default zero. -/
def lookupQ (l : List (String × ℚ)) (s : String) : ℚ :=
  (l.lookup s).getD 0

/-- Lookup of a stored closure (keys present by construction). -/
def lookupCl (l : List (String × Closure)) (s : String) : Closure :=
  (l.lookup s).getD ⟨[], .const 0⟩

/-- The normalized channel, i.e. the attributes of an
`IonChannelSimplified` instance after `__init__`.  The `f_`-prefixed fields
are the lambdified-closure cache built by `_lambdifyChannel`. -/
structure Chan where
  ion : String
  q10 : Expr
  sp_t : String
  p_open : Expr
  statevars : List String
  varinf : List (String × Expr)
  tauinf : List (String × Expr)
  fstatevar : List (String × Expr)
  conc : List (String × ℚ)
  sp_c : List String
  default_params : List (String × ℚ)
  f_p_open : Closure
  f_statevar : Option Closure
  f_varinf : List (String × Closure)
  f_tauinf : List (String × Closure)
  dp_dx : List (String × Closure)
  df_dv : List (String × Closure)
  df_dx : List (String × Closure)
  df_dc : List (String × List (String × Closure))
deriving DecidableEq, Repr, Inhabited

/-- Substitute the default parameters into an expression,
`_substituteDefaults` in the source (sequential `subs` over the
`default_params` items). -/
def substituteDefaults (dps : List (String × ℚ)) (e : Expr) : Expr :=
  dps.foldl (fun acc t => Expr.subs t.1 (.const t.2) acc) e

/-- Rate-constant resolution (source lines 206-215, first loop): for each
state variable look up `alpha` then `beta`; a missing key raises a
`KeyError` naming that state variable. -/
def resolveRates (A B : List (String × Expr)) :
    List String → Except PyError (List (String × Expr × Expr))
  | [] => .ok []
  | s :: rest =>
    match A.lookup s with
    | none => .error (.keyError s)
    | some a =>
      match B.lookup s with
      | none => .error (.keyError s)
      | some b =>
        match resolveRates A B rest with
        | .error err => .error err
        | .ok r => .ok ((s, a, b) :: r)

/-- Asymptotic-form resolution (source lines 216-220): for each state
variable look up `varinf` then `tauinf`; the stored time constant is the
declared one divided by `q10`. -/
def resolveVT (V T : List (String × Expr)) (q10 : Expr) :
    List String → Except PyError (List (String × Expr × Expr))
  | [] => .ok []
  | s :: rest =>
    match V.lookup s with
    | none => .error (.keyError s)
    | some vi =>
      match T.lookup s with
      | none => .error (.keyError s)
      | some ti =>
        match resolveVT V T q10 rest with
        | .error err => .error err
        | .ok r => .ok ((s, vi, Expr.div ti q10) :: r)

/-- The `AttributeError` message of source lines 222-223. -/
def attrMsg : String :=
  "Necessary attributes not defined, define either alpha and beta or tauinf and varinf."

/-- Conversion of resolved `(state variable, alpha, beta)` triples to the
internal `(state variable, varinf, tauinf)` representation (source lines
211-215): `varinf = alpha/(alpha + beta)` and
`tauinf = (1/q10)/(alpha + beta)`. -/
def kinOfRates (d : ChanDef) (rs : List (String × Expr × Expr)) :
    List (String × Expr × Expr) :=
  rs.map (fun tr =>
    (tr.1, Expr.div tr.2.1 (Expr.add tr.2.1 tr.2.2),
     Expr.div (Expr.div (Expr.const 1) d.q10) (Expr.add tr.2.1 tr.2.2)))

/-- Kinetics normalization (source lines 206-223): in rate-constant form
the stored pair is `alpha/(alpha+beta)` and `(1/q10)/(alpha+beta)`; in
asymptotic form it is the declared pair with the time constant divided by
`q10`; with neither attribute pair present an `AttributeError` is raised.
Returns the list of `(state variable, varinf, tauinf)` triples. -/
def mkKinetics (d : ChanDef) (svars : List String) :
    Except PyError (List (String × Expr × Expr)) :=
  match d.alpha, d.beta with
  | some A, some B =>
    match resolveRates A B svars with
    | .error err => .error err
    | .ok rs => .ok (kinOfRates d rs)
  | _, _ =>
    match d.tauinf, d.varinf with
    | some T, some V => resolveVT V T d.q10 svars
    | _, _ => .error (.attrError attrMsg)

/-- Concentration resolution (source lines 232-246).  When `conc` is not
declared the source initializes `self.conc = {}` (a dict) and then executes
`self.conc |= expr.free_symbols` for every state-variable right-hand side;
updating a dict from a set of symbols raises a `TypeError` whenever the set
is nonempty, and every right-hand side contains its own state variable, so
this path fails unless there are no state variables at all.  A declared set
is converted through `CONC_DICT` (a missing ion is a `KeyError`); a
declared dict is kept. -/
def resolveConc (d : ChanDef) (svars : List String) :
    Except PyError (List (String × ℚ)) :=
  match d.conc with
  | none => if svars.isEmpty then .ok [] else .error .typeError
  | some (.dict l) => .ok l
  | some (.set l) =>
    l.mapM (fun s =>
      match CONC_DICT.lookup s with
      | some v => Except.ok (s, v)
      | none => Except.error (.keyError s))

/-- Reversal entry of `default_params` (source lines 252-256). With no
declared `e` and an ion absent from `E_ION_DICT`, the `except KeyError`
handler evaluates `warnings.warn(...)`, but the module never imports
`warnings`, so a `NameError` for the name `warnings` escapes. -/
def resolveE (d : ChanDef) : Except PyError (List (String × ℚ)) :=
  match d.e with
  | some ev => .ok [("e", ev)]
  | none =>
    match E_ION_DICT.lookup d.ion with
    | some ev => .ok [("e", ev)]
    | none => .error (.nameError "warnings")

/-- Model of `_lambdifyChannel` (source lines 301-342): builds the closure cache
from the symbolic fields, substituting the current default parameters into
the per-state-variable expressions first.  The open-probability derivative
is taken from the unsubstituted `p_open`; the right-hand-side derivatives
are taken after default substitution, exactly as in the source.  The scalar
`f_statevar` field reflects the source's accidental overwriting of the
closure on every loop iteration (line 325), leaving the last one. -/
def lambdifyChannel (c : Chan) : Chan :=
  let args := "v" :: (c.statevars ++ c.sp_c)
  let argsNoSv := "v" :: c.sp_c
  let subsD := substituteDefaults c.default_params
  { c with
    f_p_open := ⟨args, c.p_open⟩
    f_statevar := (c.fstatevar.map (fun t => Closure.mk args (subsD t.2))).getLast?
    f_varinf := c.fstatevar.map (fun t => (t.1, ⟨argsNoSv, subsD (lookup0 c.varinf t.1)⟩))
    f_tauinf := c.fstatevar.map (fun t => (t.1, ⟨argsNoSv, subsD (lookup0 c.tauinf t.1)⟩))
    dp_dx := c.fstatevar.map (fun t => (t.1, ⟨args, c.p_open.diff t.1⟩))
    df_dv := c.fstatevar.map (fun t => (t.1, ⟨args, (subsD t.2).diff "v"⟩))
    df_dx := c.fstatevar.map (fun t => (t.1, ⟨args, (subsD t.2).diff t.1⟩))
    df_dc := c.fstatevar.map (fun t =>
      (t.1, c.sp_c.map (fun cn => (cn, Closure.mk args ((subsD t.2).diff cn))))) }

/-- The channel attributes as set by `__init__` before `_lambdifyChannel`
runs; the closure fields hold dummies that `lambdifyChannel` overwrites. -/
def mkChanBase (d : ChanDef) (sp_t : String) (kin : List (String × Expr × Expr))
    (concL : List (String × ℚ)) (eEntry : List (String × ℚ)) : Chan :=
  { ion := d.ion
    q10 := d.q10
    sp_t := sp_t
    p_open := d.p_open
    statevars := d.p_open.freeSymbols
    varinf := kin.map (fun t => (t.1, t.2.1))
    tauinf := kin.map (fun t => (t.1, t.2.2))
    fstatevar := kin.map (fun t =>
      (t.1, Expr.div (Expr.add (Expr.neg (Expr.var t.1)) t.2.1) t.2.2))
    conc := concL
    sp_c := concL.map Prod.fst
    default_params := (sp_t, d.t.getD TEMP_DEFAULT) :: eEntry
    f_p_open := ⟨[], .const 0⟩
    f_statevar := none
    f_varinf := []
    f_tauinf := []
    dp_dx := []
    df_dv := []
    df_dx := []
    df_dc := [] }

/-- Model of `IonChannelSimplified.__init__` (source lines 176-259): the q10
assertion (at most one free symbol), the temperature symbol, the state
variables as the free symbols of `p_open`, kinetics normalization, the
rate-of-change `(-x + varinf)/tauinf` per state variable, concentration
resolution, default parameters, and finally lambdification. -/
def construct (d : ChanDef) : Except PyError Chan :=
  if 1 < d.q10.freeSymbols.length then .error .assertionError else
  let sp_t := d.q10.freeSymbols.headD "temp"
  let statevars := d.p_open.freeSymbols
  match mkKinetics d statevars with
  | .error err => .error err
  | .ok kin =>
    match resolveConc d statevars with
    | .error err => .error err
    | .ok concL =>
      match resolveE d with
      | .error err => .error err
      | .ok eEntry => .ok (lambdifyChannel (mkChanBase d sp_t kin concL eEntry))

/-- Association-list update of a single key, with Python-dict semantics:
replace the value when the key exists, append the pair otherwise. -/
def setKey (l : List (String × ℚ)) (k : String) (v : ℚ) : List (String × ℚ) :=
  if (l.lookup k).isSome then l.map (fun t => if t.1 = k then (k, v) else t)
  else l ++ [(k, v)]

/-- Python's `dict.update`: apply `setKey` for each supplied pair. -/
def updateAssoc (l : List (String × ℚ)) : List (String × ℚ) → List (String × ℚ)
  | [] => l
  | (k, v) :: rest => updateAssoc (setKey l k v) rest

/-- Model of `setDefaultParams` (source lines 282-287): `default_params.update(kwargs)`
and nothing else; in particular the closure cache is left as it is. -/
def setDefaultParams (kwargs : List (String × ℚ)) (c : Chan) : Chan :=
  { c with default_params := updateAssoc c.default_params kwargs }

/-- Model of `_argsAsList` (source lines 344-369): the argument list is the voltage,
then (unless `w_statevar` is false) one value per state variable — the
keyword override when given, otherwise `self.f_varinf[svar](v)`, a call
passing only the voltage — and then one value per concentration, the
keyword override when given and the stored default otherwise. -/
def argsAsList (c : Chan) (F : String → ℚ → ℚ) (v : ℚ) (w_statevar : Bool)
    (kwargs : List (String × ℚ)) : Except PyError (List ℚ) :=
  match (if w_statevar then
      c.statevars.mapM (fun s =>
        match kwargs.lookup s with
        | some x => Except.ok x
        | none => (lookupCl c.f_varinf s).call F [v])
    else .ok []) with
  | .error err => .error err
  | .ok svargs =>
    .ok (v :: (svargs ++ c.conc.map (fun t =>
      match kwargs.lookup t.1 with
      | some x => x
      | none => t.2)))

/-- Model of `computePOpen` (source lines 371-389). -/
def computePOpen (c : Chan) (F : String → ℚ → ℚ) (v : ℚ)
    (kwargs : List (String × ℚ)) : Except PyError ℚ :=
  match argsAsList c F v true kwargs with
  | .error err => .error err
  | .ok args => c.f_p_open.call F args

/-- Calling a `CallDict` of closures on a shared argument list (source
lines 85-94): a dict from each key to its closure's value. -/
def callAll (l : List (String × Closure)) (F : String → ℚ → ℚ)
    (args : List ℚ) : Except PyError (List (String × ℚ)) :=
  l.mapM (fun t => (t.2.call F args).map (fun x => (t.1, x)))

/-- Model of `computeVarinf` (source lines 434-450): evaluates the `f_varinf`
closures at the voltage and the stored default concentrations. -/
def computeVarinf (c : Chan) (F : String → ℚ → ℚ) (v : ℚ) :
    Except PyError (List (String × ℚ)) :=
  match argsAsList c F v false [] with
  | .error err => .error err
  | .ok args => callAll c.f_varinf F args

/-- Model of `computeTauinf` (source lines 452-468). -/
def computeTauinf (c : Chan) (F : String → ℚ → ℚ) (v : ℚ) :
    Except PyError (List (String × ℚ)) :=
  match argsAsList c F v false [] with
  | .error err => .error err
  | .ok args => callAll c.f_tauinf F args

/-- Model of `computeDerivatives` (source lines 391-412): the triple of per-state
dicts `dp_dx`, `df_dv`, `df_dx` evaluated on the common argument list. -/
def computeDerivatives (c : Chan) (F : String → ℚ → ℚ) (v : ℚ)
    (kwargs : List (String × ℚ)) :
    Except PyError (List (String × ℚ) × List (String × ℚ) × List (String × ℚ)) :=
  match argsAsList c F v true kwargs with
  | .error err => .error err
  | .ok args =>
    match callAll c.dp_dx F args with
    | .error err => .error err
    | .ok dp =>
      match callAll c.df_dv F args with
      | .error err => .error err
      | .ok dv =>
        match callAll c.df_dx F args with
        | .error err => .error err
        | .ok dx => .ok (dp, dv, dx)

/-- The accumulation loop of `computeLinear` (source lines 497-502):
starting from zero, add `dp_dx * (df_dv * 1e3) / (freqs - df_dx * 1e3)` for
each state variable. -/
def linAccum (dv dx : List (String × ℚ)) (freqs : ℚ) :
    List (String × ℚ) → ℚ
  | [] => 0
  | (s, dpv) :: rest =>
    dpv * (lookupQ dv s * 1000) / (freqs - lookupQ dx s * 1000) +
      linAccum dv dx freqs rest

/-- Model of `computeLinear` (source lines 470-503), at a scalar voltage and a
scalar frequency. -/
def computeLinear (c : Chan) (F : String → ℚ → ℚ) (v freqs : ℚ)
    (kwargs : List (String × ℚ)) : Except PyError ℚ :=
  match computeDerivatives c F v kwargs with
  | .error err => .error err
  | .ok (dp, dv, dx) => .ok (linAccum dv dx freqs dp)

/-- Model of `_getReversal` (source lines 543-549): the explicit argument when
given, otherwise `default_params['e']`; a missing default is a
`KeyError`. -/
def getReversal (c : Chan) (e : Option ℚ) : Except PyError ℚ :=
  match e with
  | some x => .ok x
  | none =>
    match c.default_params.lookup "e" with
    | some x => .ok x
    | none => .error (.keyError "No default reversal defined, provide value for e.")

/-- Model of `computeLinSum` (source lines 551-577):
`(e - v) * computeLinear(v, freqs) - computePOpen(v)`. -/
def computeLinSum (c : Chan) (F : String → ℚ → ℚ) (v freqs : ℚ)
    (e : Option ℚ) (kwargs : List (String × ℚ)) : Except PyError ℚ :=
  match getReversal c e with
  | .error err => .error err
  | .ok ev =>
    match computeLinear c F v freqs kwargs with
    | .error err => .error err
    | .ok lin =>
      match computePOpen c F v kwargs with
      | .error err => .error err
      | .ok po => .ok ((ev - v) * lin - po)

/-! ### The singularity-safe dispatcher `_func` (source lines 21-43)

The scalar path compares `np.abs(vv - e_trap)` against `0.001`; the array
path compares against `0.0001` and selects per element.  An array is
modelled as a list of rationals, and the two lambdified formulas as
functions applied elementwise (a lambdified numpy closure maps elementwise
over its input array, so evaluating it on the selected subarray agrees
elementwise with evaluating it on each element). -/

/-- Rational absolute value written by cases, modelling `np.abs`. -/
def absQ (q : ℚ) : ℚ := if q < 0 then -q else q

/-- Scalar branch selection of `_func.__call__` (source line 30):
the limit formula is chosen when `|vv - e_trap| < 0.001`. -/
def scalarUsesVtrap (e_trap v : ℚ) : Bool := absQ (v - e_trap) < mkRat 1 1000

/-- Array branch selection of `_func.__call__` (source line 36):
the limit formula is chosen when `|vv - e_trap| < 0.0001`. -/
def arrayUsesVtrap (e_trap v : ℚ) : Bool := absQ (v - e_trap) < mkRat 1 10000

/-- The scalar path of `_func.__call__` (source lines 29-33). -/
def funcCallScalar (eval_func_aux eval_func_vtrap : ℚ → ℚ) (e_trap v : ℚ) : ℚ :=
  if scalarUsesVtrap e_trap v then eval_func_vtrap v else eval_func_aux v

/-- The array path of `_func.__call__` (source lines 34-43). -/
def funcCallArray (eval_func_aux eval_func_vtrap : ℚ → ℚ) (e_trap : ℚ)
    (vs : List ℚ) : List ℚ :=
  vs.map (fun v => if arrayUsesVtrap e_trap v then eval_func_vtrap v else eval_func_aux v)

/-! ### Fragments of `writeCPPCode` (source lines 711-895)

The generated text is modelled line by line.  `sp.printing.ccode` of an
expression is an expression printer, kept as a parameter `pr`;
`sp.printing.ccode` of a symbol is its name. -/

/-- The text `sp.printing.ccode(sp.Float(1e-5))` printed in the
instantaneous branch (source line 758). -/
def ccodeFloat1em5 : String := "1.0000000000000001e-5"

/-- The `calcFunStatevar` lines emitted for one state variable (source
lines 748-762): the `<name>_inf` assignment, then — only when the state
variable's name is the string `m` — an `if(m_instantaneous)` conditional
assigning the constant `1e-5` to the time constant with the symbolic time
constant in the `else` arm; every other state variable gets a single
unconditional time-constant assignment. -/
def statevarTauLines (pr : Expr → String) (dps : List (String × ℚ))
    (varinfL tauinfL : List (String × Expr)) (name : String) : List String :=
  let varinfS := substituteDefaults dps (lookup0 varinfL name)
  let tauinfS := substituteDefaults dps (lookup0 tauinfL name)
  ("    m_" ++ (name ++ ("_inf = " ++ (pr varinfS ++ ";")))) ::
  (if name = "m" then
    ["    if(m_instantaneous)",
     "        m_tau_" ++ (name ++ (" = " ++ (ccodeFloat1em5 ++ ";"))),
     "    else",
     "        m_tau_" ++ (name ++ (" = " ++ (pr tauinfS ++ ";")))]
   else
    ["    m_" ++ ("tau_" ++ (name ++ (" = " ++ (pr tauinfS ++ ";"))))])

/-- The full `calcFunStatevar` method body (source lines 747-763). -/
def calcFunStatevarLines (pr : Expr → String) (cname : String) (c : Chan) :
    List String :=
  ("void " ++ (cname ++ "::calcFunStatevar(double v)\x7b")) ::
  ((c.statevars.map (statevarTauLines pr c.default_params c.varinf c.tauinf)).flatten
    ++ ["\x7d"])

/-- The `cerr` diagnostic emitted on a Newton-constant size mismatch
(source lines 828-829). -/
def newtonSizeErrLine : String :=
  "        cerr << \"input arg [vs] has incorrect size, should have same size as number of channel state variables\" << endl;"

/-- The generated `setfNewtonConstant` method (source lines 826-832): a
guard comparing `v_size` with the number of state variables, the `cerr`
diagnostic, then one `m_v_<var> = vs[i];` assignment per state variable. -/
def setfNewtonConstantLines (cname : String) (svars : List String) :
    List String :=
  ("void " ++ (cname ++ "::setfNewtonConstant(double* vs, int v_size)\x7b")) ::
  ("    if(v_size != " ++ (toString svars.length ++ ")")) ::
  newtonSizeErrLine ::
  ((svars.enum.map (fun t => "    m_v_" ++ (t.2 ++ (" = vs[" ++ (toString t.1 ++ "];")))))
    ++ ["\x7d"])

/-! ### Helper lemmas about the normalizer -/

/-- Successful rate resolution visits exactly the given state variables and
records the looked-up `alpha`/`beta` entries. -/
lemma resolveRates_ok {A B : List (String × Expr)} :
    ∀ {l : List String} {rs : List (String × Expr × Expr)},
      resolveRates A B l = .ok rs →
      rs.map Prod.fst = l ∧
        ∀ t ∈ rs, A.lookup t.1 = some t.2.1 ∧ B.lookup t.1 = some t.2.2 := by
  intro l
  induction l with
  | nil =>
    intro rs h
    simp only [resolveRates, Except.ok.injEq] at h
    subst h
    simp
  | cons s rest ih =>
    intro rs h
    simp only [resolveRates] at h
    rcases hA : A.lookup s with _ | a
    · rw [hA] at h; exact absurd h (by simp)
    rw [hA] at h
    rcases hB : B.lookup s with _ | b
    · rw [hB] at h; exact absurd h (by simp)
    rw [hB] at h
    rcases hr : resolveRates A B rest with err | r
    · rw [hr] at h; exact absurd h (by simp)
    rw [hr] at h
    simp only [Except.ok.injEq] at h
    subst h
    rcases ih hr with ⟨hfst, hmem⟩
    refine ⟨by simp [hfst], ?_⟩
    intro t ht
    rcases List.mem_cons.mp ht with h1 | h1
    · subst h1; exact ⟨hA, hB⟩
    · exact hmem t h1

/-- Successful asymptotic-form resolution visits exactly the given state
variables, records the looked-up `varinf` entry, and stores the looked-up
`tauinf` entry divided by `q10`. -/
lemma resolveVT_ok {V T : List (String × Expr)} {q10 : Expr} :
    ∀ {l : List String} {rs : List (String × Expr × Expr)},
      resolveVT V T q10 l = .ok rs →
      rs.map Prod.fst = l ∧
        ∀ t ∈ rs, V.lookup t.1 = some t.2.1 ∧
          ∃ ti, T.lookup t.1 = some ti ∧ t.2.2 = Expr.div ti q10 := by
  intro l
  induction l with
  | nil =>
    intro rs h
    simp only [resolveVT, Except.ok.injEq] at h
    subst h
    simp
  | cons s rest ih =>
    intro rs h
    simp only [resolveVT] at h
    rcases hV : V.lookup s with _ | vi
    · rw [hV] at h; exact absurd h (by simp)
    rw [hV] at h
    rcases hT : T.lookup s with _ | ti
    · rw [hT] at h; exact absurd h (by simp)
    rw [hT] at h
    rcases hr : resolveVT V T q10 rest with err | r
    · rw [hr] at h; exact absurd h (by simp)
    rw [hr] at h
    simp only [Except.ok.injEq] at h
    subst h
    rcases ih hr with ⟨hfst, hmem⟩
    refine ⟨by simp [hfst], ?_⟩
    intro t ht
    rcases List.mem_cons.mp ht with h1 | h1
    · subst h1; exact ⟨hV, ti, hT, rfl⟩
    · exact hmem t h1

/-- A key occurring among the first components of an association-producing
map has a distinguished witness entry: the first occurrence, whose image is
what every lookup of the mapped list returns. -/
lemma lookup_map_of_mem {β : Type} (rs : List (String × β)) (s : String)
    (h : s ∈ rs.map Prod.fst) :
    ∃ t, t ∈ rs ∧ t.1 = s ∧
      ∀ {γ : Type} (f : String × β → γ),
        (rs.map (fun u => (u.1, f u))).lookup s = some (f t) := by
  induction rs with
  | nil => simp at h
  | cons hd tl ih =>
    by_cases hs : hd.1 = s
    · refine ⟨hd, List.mem_cons_self _ _, hs, ?_⟩
      intro γ f
      simp [List.lookup, hs]
    · have h2 : s ∈ tl.map Prod.fst := by
        rw [List.map_cons, List.mem_cons] at h
        rcases h with h | h
        · exact absurd h.symm hs
        · exact h
      rcases ih h2 with ⟨t, ht, ht1, hf⟩
      refine ⟨t, List.mem_cons_of_mem _ ht, ht1, ?_⟩
      intro γ f
      have hb : (s == hd.1) = false := by
        simp only [beq_eq_false_iff_ne, ne_eq]
        exact fun hh => hs hh.symm
      simp [List.lookup, hb, hf f]

/-- Inversion of a successful construction: the kinetics, concentration and
reversal resolutions all succeeded, and the result is the lambdified base
channel. -/
lemma construct_ok {d : ChanDef} {c : Chan} (h : construct d = .ok c) :
    ∃ kin concL eEntry,
      mkKinetics d d.p_open.freeSymbols = .ok kin ∧
      resolveConc d d.p_open.freeSymbols = .ok concL ∧
      resolveE d = .ok eEntry ∧
      c = lambdifyChannel
        (mkChanBase d (d.q10.freeSymbols.headD "temp") kin concL eEntry) := by
  unfold construct at h
  split at h
  · exact absurd h (by simp)
  dsimp only at h
  rcases hkin : mkKinetics d d.p_open.freeSymbols with err | kin
  · rw [hkin] at h; exact absurd h (by simp)
  rw [hkin] at h
  rcases hconc : resolveConc d d.p_open.freeSymbols with err | concL
  · rw [hconc] at h; exact absurd h (by simp)
  rw [hconc] at h
  rcases heE : resolveE d with err | eEntry
  · rw [heE] at h; exact absurd h (by simp)
  rw [heE] at h
  simp only [Except.ok.injEq] at h
  exact ⟨kin, concL, eEntry, rfl, rfl, rfl, h.symm⟩

/-- The rate conversion keeps the state-variable names. -/
lemma kinOfRates_fst (d : ChanDef) (rs : List (String × Expr × Expr)) :
    (kinOfRates d rs).map Prod.fst = rs.map Prod.fst := by
  unfold kinOfRates
  rw [List.map_map]
  rfl

/-- Successfully normalized kinetics cover exactly the state variables. -/
lemma mkKinetics_fst {d : ChanDef} {svars : List String}
    {kin : List (String × Expr × Expr)} (h : mkKinetics d svars = .ok kin) :
    kin.map Prod.fst = svars := by
  unfold mkKinetics at h
  split at h
  · rename_i A B _ _
    rcases hr : resolveRates A B svars with err | rs
    · rw [hr] at h; exact absurd h (by simp)
    · rw [hr] at h
      simp only [Except.ok.injEq] at h
      subst h
      rw [kinOfRates_fst]
      exact (resolveRates_ok hr).1
  · split at h
    · exact (resolveVT_ok h).1
    · exact absurd h (by simp)

/-- C1: for a channel defined in rate-constant form (an `alpha` and `beta`
entry for every state variable of the open probability), the normalized
model stores, for each state variable, exactly the symbolic expressions
`alpha/(alpha + beta)` as asymptotic value and `(1/q10)/(alpha + beta)` as
time constant, and the difference between the stored expression and that
identity evaluates to zero under every interpretation and environment. -/
theorem construct_rateForm_varinf_tauinf
    (d : ChanDef) (A B : List (String × Expr)) (c : Chan)
    (hA : d.alpha = some A) (hB : d.beta = some B)
    (hc : construct d = .ok c) :
    ∀ s ∈ c.statevars, ∃ a b,
      A.lookup s = some a ∧ B.lookup s = some b ∧
      c.varinf.lookup s = some (Expr.div a (Expr.add a b)) ∧
      c.tauinf.lookup s =
        some (Expr.div (Expr.div (Expr.const 1) c.q10) (Expr.add a b)) ∧
      ∀ (F : String → ℚ → ℚ) (env : String → ℚ),
        Expr.eval F env
          (Expr.sub (lookup0 c.varinf s) (Expr.div a (Expr.add a b))) = 0 ∧
        Expr.eval F env
          (Expr.sub (lookup0 c.tauinf s)
            (Expr.div (Expr.div (Expr.const 1) c.q10) (Expr.add a b))) = 0 := by
  obtain ⟨kin, concL, eE, hkin, hco, heE, hcEq⟩ := construct_ok hc
  unfold mkKinetics at hkin
  rw [hA, hB] at hkin
  dsimp only at hkin
  rcases hr : resolveRates A B d.p_open.freeSymbols with err | rs
  · rw [hr] at hkin; exact absurd hkin (by simp)
  rw [hr] at hkin
  simp only [Except.ok.injEq] at hkin
  subst hkin
  have hst : c.statevars = d.p_open.freeSymbols := by rw [hcEq]; rfl
  have hcv : c.varinf = (kinOfRates d rs).map (fun u => (u.1, u.2.1)) := by rw [hcEq]; rfl
  have hct : c.tauinf = (kinOfRates d rs).map (fun u => (u.1, u.2.2)) := by rw [hcEq]; rfl
  have hq : c.q10 = d.q10 := by rw [hcEq]; rfl
  intro s hs
  rw [hst] at hs
  have hsv : s ∈ (kinOfRates d rs).map Prod.fst := by
    rw [kinOfRates_fst, (resolveRates_ok hr).1]
    exact hs
  obtain ⟨t, htk, ht1, hlook⟩ := lookup_map_of_mem (kinOfRates d rs) s hsv
  rcases List.mem_map.mp htk with ⟨u, hu_mem, hu⟩
  obtain ⟨hAu, hBu⟩ := (resolveRates_ok hr).2 u hu_mem
  have hus : u.1 = s := by rw [← ht1, ← hu]
  have hv := hlook (fun tt => tt.2.1)
  have ht2 := hlook (fun tt => tt.2.2)
  rw [← hu] at hv ht2
  have hvL : c.varinf.lookup s = some (Expr.div u.2.1 (Expr.add u.2.1 u.2.2)) := by
    rw [hcv]; exact hv
  have htL : c.tauinf.lookup s =
      some (Expr.div (Expr.div (Expr.const 1) c.q10) (Expr.add u.2.1 u.2.2)) := by
    rw [hct, hq]; exact ht2
  refine ⟨u.2.1, u.2.2, by rw [← hus]; exact hAu, by rw [← hus]; exact hBu,
    hvL, htL, ?_⟩
  intro F env
  constructor
  · have hl0 : lookup0 c.varinf s = Expr.div u.2.1 (Expr.add u.2.1 u.2.2) := by
      unfold lookup0
      rw [hvL]
      rfl
    rw [hl0]
    simp [Expr.eval]
  · have hl0 : lookup0 c.tauinf s =
        Expr.div (Expr.div (Expr.const 1) c.q10) (Expr.add u.2.1 u.2.2) := by
      unfold lookup0
      rw [htL]
      rfl
    rw [hl0]
    simp [Expr.eval]

/-- A minimal rate-constant-form channel definition, used as a concrete
input for the rate-form theorem. -/
def rateDef : ChanDef :=
  { p_open := .var "m"
    alpha := some [("m", .var "v")]
    beta := some [("m", .const 1)]
    ion := "na"
    conc := some (.dict []) }

/-- The channel constructed from `rateDef`. -/
def rateChan : Chan :=
  match construct rateDef with
  | .ok c => c
  | .error _ => default

/-- Witness for the rate-form theorem: its conclusion holds concretely for
the state variable of `rateDef`. -/
theorem construct_rateForm_varinf_tauinf_witness :
    ∃ a b,
      List.lookup "m" [("m", Expr.var "v")] = some a ∧
      List.lookup "m" [("m", Expr.const 1)] = some b ∧
      rateChan.varinf.lookup "m" = some (Expr.div a (Expr.add a b)) ∧
      rateChan.tauinf.lookup "m" =
        some (Expr.div (Expr.div (Expr.const 1) rateChan.q10) (Expr.add a b)) ∧
      ∀ (F : String → ℚ → ℚ) (env : String → ℚ),
        Expr.eval F env
          (Expr.sub (lookup0 rateChan.varinf "m") (Expr.div a (Expr.add a b))) = 0 ∧
        Expr.eval F env
          (Expr.sub (lookup0 rateChan.tauinf "m")
            (Expr.div (Expr.div (Expr.const 1) rateChan.q10) (Expr.add a b))) = 0 :=
  construct_rateForm_varinf_tauinf rateDef [("m", Expr.var "v")]
    [("m", Expr.const 1)] rateChan rfl rfl rfl "m" (by decide)

/-- C2: for every successfully constructed channel — whichever of the two
definition forms was used — the stored rate-of-change of each state
variable `x` is the symbolic expression `(-x + varinf)/tauinf`, which under
every interpretation and environment evaluates to
`(asymptoticValue - x)/timeConstant`. -/
theorem construct_fstatevar_eq_rateOfChange
    (d : ChanDef) (c : Chan) (hc : construct d = .ok c) :
    ∀ s ∈ c.statevars, ∃ vi ti,
      c.varinf.lookup s = some vi ∧ c.tauinf.lookup s = some ti ∧
      c.fstatevar.lookup s =
        some (Expr.div (Expr.add (Expr.neg (Expr.var s)) vi) ti) ∧
      ∀ (F : String → ℚ → ℚ) (env : String → ℚ),
        Expr.eval F env (Expr.div (Expr.add (Expr.neg (Expr.var s)) vi) ti) =
          Expr.eval F env (Expr.div (Expr.sub vi (Expr.var s)) ti) := by
  obtain ⟨kin, concL, eE, hkin, hco, heE, hcEq⟩ := construct_ok hc
  have hst : c.statevars = d.p_open.freeSymbols := by rw [hcEq]; rfl
  have hcv : c.varinf = kin.map (fun u => (u.1, u.2.1)) := by rw [hcEq]; rfl
  have hct : c.tauinf = kin.map (fun u => (u.1, u.2.2)) := by rw [hcEq]; rfl
  have hcf : c.fstatevar = kin.map (fun u =>
      (u.1, Expr.div (Expr.add (Expr.neg (Expr.var u.1)) u.2.1) u.2.2)) := by
    rw [hcEq]; rfl
  intro s hs
  have hsv : s ∈ kin.map Prod.fst := by
    rw [mkKinetics_fst hkin]
    rw [hst] at hs
    exact hs
  obtain ⟨t, htk, ht1, hlook⟩ := lookup_map_of_mem kin s hsv
  refine ⟨t.2.1, t.2.2, ?_, ?_, ?_, ?_⟩
  · rw [hcv]; exact hlook (fun u => u.2.1)
  · rw [hct]; exact hlook (fun u => u.2.2)
  · rw [hcf]
    have hlf := hlook (fun u =>
      Expr.div (Expr.add (Expr.neg (Expr.var u.1)) u.2.1) u.2.2)
    rw [ht1] at hlf
    exact hlf
  · intro F env
    simp only [Expr.eval]
    ring

/-- A minimal asymptotic-form channel definition, used as a concrete input
for the rate-of-change theorem. -/
def vtDef : ChanDef :=
  { p_open := .var "x"
    varinf := some [("x", .const 1)]
    tauinf := some [("x", .const 2)]
    ion := "k"
    conc := some (.dict []) }

/-- The channel constructed from `vtDef`. -/
def vtChan : Chan :=
  match construct vtDef with
  | .ok c => c
  | .error _ => default

/-- Witness for the rate-of-change theorem: its conclusion holds concretely
for the state variable of `vtDef`. -/
theorem construct_fstatevar_eq_rateOfChange_witness :
    ∃ vi ti,
      vtChan.varinf.lookup "x" = some vi ∧ vtChan.tauinf.lookup "x" = some ti ∧
      vtChan.fstatevar.lookup "x" =
        some (Expr.div (Expr.add (Expr.neg (Expr.var "x")) vi) ti) ∧
      ∀ (F : String → ℚ → ℚ) (env : String → ℚ),
        Expr.eval F env (Expr.div (Expr.add (Expr.neg (Expr.var "x")) vi) ti) =
          Expr.eval F env (Expr.div (Expr.sub vi (Expr.var "x")) ti) :=
  construct_fstatevar_eq_rateOfChange vtDef vtChan rfl "x" (by decide)

/-- Counterexample to C3 as stated: at distance `1/2000` from the singular
point — inside the scalar tolerance `0.001` but outside the array tolerance
`0.0001` — the scalar path selects the limit formula while the array path
selects the ordinary formula for the same element, so the elementwise
branch selection does not match the scalar branch selection. -/
theorem dispatch_branch_mismatch_cex :
    scalarUsesVtrap 0 (mkRat 1 2000) = true ∧ arrayUsesVtrap 0 (mkRat 1 2000) = false ∧
    funcCallArray (fun _ => 0) (fun _ => 1) 0 [mkRat 1 2000] ≠
      [funcCallScalar (fun _ => 0) (fun _ => 1) 0 (mkRat 1 2000)] := by
  have hs : scalarUsesVtrap 0 (mkRat 1 2000) = true := by
    norm_num [scalarUsesVtrap, absQ, Rat.mkRat_eq_div]
  have ha : arrayUsesVtrap 0 (mkRat 1 2000) = false := by
    norm_num [arrayUsesVtrap, absQ, Rat.mkRat_eq_div]
  refine ⟨hs, ha, ?_⟩
  simp only [funcCallArray, funcCallScalar, hs, ha, List.map_cons, List.map_nil,
    if_true, Bool.false_eq_true, if_false]
  intro h
  have h0 : (0 : ℚ) = 1 := by
    have := List.cons.injEq (0 : ℚ) [] 1 [] ▸ h
    exact (List.cons.inj h).1
  norm_num at h0

/-- C3 as amended: the scalar path applies the limit formula within the
absolute tolerance `0.001` of the singular point and the array path applies
it elementwise within the tolerance `0.0001`; within each tolerance the
value is the limit formula's (finite) value, so the vanishing denominator
of the ordinary formula is never evaluated there.  The scalar and array
branch selections agree exactly when the distance to the singular point is
below `0.0001` or at least `0.001`. -/
theorem dispatch_branch_amended (aux vtrap : ℚ → ℚ) (e v : ℚ) :
    (scalarUsesVtrap e v = true → funcCallScalar aux vtrap e v = vtrap v) ∧
    (arrayUsesVtrap e v = true → funcCallArray aux vtrap e [v] = [vtrap v]) ∧
    (scalarUsesVtrap e v = arrayUsesVtrap e v ↔
      (absQ (v - e) < mkRat 1 10000 ∨ mkRat 1 1000 ≤ absQ (v - e))) := by
  refine ⟨?_, ?_, ?_⟩
  · intro h
    simp [funcCallScalar, h]
  · intro h
    simp [funcCallArray, h]
  · unfold scalarUsesVtrap arrayUsesVtrap
    rw [decide_eq_decide]
    by_cases h1 : absQ (v - e) < mkRat 1 10000
    · have h2 : absQ (v - e) < mkRat 1 1000 :=
        lt_trans h1 (by norm_num [Rat.mkRat_eq_div])
      exact iff_of_true (iff_of_true h2 h1) (Or.inl h1)
    · by_cases h2 : absQ (v - e) < mkRat 1 1000
      · constructor
        · intro h3
          exact absurd (h3.mp h2) h1
        · intro h3
          rcases h3 with h3 | h3
          · exact absurd h3 h1
          · exact absurd h2 (not_lt.mpr h3)
      · exact iff_of_true (iff_of_false h2 h1) (Or.inr (le_of_not_lt h2))

/-- Witness for the amended dispatcher theorem: both limit-formula branches
fire at concrete voltages inside the respective tolerances. -/
theorem dispatch_branch_amended_witness :
    funcCallScalar (fun _ => 7) (fun _ => 3) 0 (mkRat 1 2000) = 3 ∧
    funcCallArray (fun _ => 7) (fun _ => 3) 0 [mkRat 1 50000] = [3] :=
  ⟨(dispatch_branch_amended (fun _ => 7) (fun _ => 3) 0 (mkRat 1 2000)).1
    (by norm_num [scalarUsesVtrap, absQ, Rat.mkRat_eq_div]),
   (dispatch_branch_amended (fun _ => 7) (fun _ => 3) 0 (mkRat 1 50000)).2.1
    (by norm_num [arrayUsesVtrap, absQ, Rat.mkRat_eq_div])⟩

/-- When some state variable is missing from `alpha` or `beta`, rate
resolution raises a `KeyError` naming a state variable with a missing
entry. -/
lemma resolveRates_err {A B : List (String × Expr)} :
    ∀ {l : List String},
      l.all (fun s => (A.lookup s).isSome && (B.lookup s).isSome) = false →
      ∃ s ∈ l, resolveRates A B l = .error (.keyError s) ∧
        ((A.lookup s).isSome = false ∨ (B.lookup s).isSome = false) := by
  intro l
  induction l with
  | nil => intro h; simp at h
  | cons s0 rest ih =>
    intro h
    rcases hA : A.lookup s0 with _ | a
    · exact ⟨s0, List.mem_cons_self _ _, by simp [resolveRates, hA],
        Or.inl (by simp [hA])⟩
    rcases hB : B.lookup s0 with _ | b
    · exact ⟨s0, List.mem_cons_self _ _, by simp [resolveRates, hA, hB],
        Or.inr (by simp [hB])⟩
    have hrest : rest.all (fun s => (A.lookup s).isSome && (B.lookup s).isSome)
        = false := by
      rw [List.all_cons] at h
      simpa [hA, hB] using h
    rcases ih hrest with ⟨s, hs, hres, hcond⟩
    exact ⟨s, List.mem_cons_of_mem _ hs, by simp [resolveRates, hA, hB, hres],
      hcond⟩

/-- When some state variable is missing from `varinf` or `tauinf`,
asymptotic-form resolution raises a `KeyError` naming a state variable with
a missing entry. -/
lemma resolveVT_err {V T : List (String × Expr)} {q10 : Expr} :
    ∀ {l : List String},
      l.all (fun s => (V.lookup s).isSome && (T.lookup s).isSome) = false →
      ∃ s ∈ l, resolveVT V T q10 l = .error (.keyError s) ∧
        ((V.lookup s).isSome = false ∨ (T.lookup s).isSome = false) := by
  intro l
  induction l with
  | nil => intro h; simp at h
  | cons s0 rest ih =>
    intro h
    rcases hV : V.lookup s0 with _ | vi
    · exact ⟨s0, List.mem_cons_self _ _, by simp [resolveVT, hV],
        Or.inl (by simp [hV])⟩
    rcases hT : T.lookup s0 with _ | ti
    · exact ⟨s0, List.mem_cons_self _ _, by simp [resolveVT, hV, hT],
        Or.inr (by simp [hT])⟩
    have hrest : rest.all (fun s => (V.lookup s).isSome && (T.lookup s).isSome)
        = false := by
      rw [List.all_cons] at h
      simpa [hV, hT] using h
    rcases ih hrest with ⟨s, hs, hres, hcond⟩
    exact ⟨s, List.mem_cons_of_mem _ hs, by simp [resolveVT, hV, hT, hres],
      hcond⟩

/-- The spec-side completeness condition: an `alpha`/`beta` (respectively
`varinf`/`tauinf`) entry for every state variable of the open probability,
in whichever attribute pair the definition supplies, with the rate pair
taking precedence as in the source's branch order. -/
def fullySpecified (d : ChanDef) : Bool :=
  match d.alpha, d.beta with
  | some A, some B =>
    d.p_open.freeSymbols.all (fun s => (A.lookup s).isSome && (B.lookup s).isSome)
  | _, _ =>
    match d.tauinf, d.varinf with
    | some T, some V =>
      d.p_open.freeSymbols.all (fun s => (V.lookup s).isSome && (T.lookup s).isSome)
    | _, _ => false

/-- An incomplete definition makes the kinetics normalization fail, either
with the fixed `AttributeError` (no attribute pair at all) or with a
`KeyError` naming a state variable. -/
lemma mkKinetics_err_of_incomplete {d : ChanDef} (h : fullySpecified d = false) :
    ∃ err, mkKinetics d d.p_open.freeSymbols = .error err ∧
      (err = .attrError attrMsg ∨
        ∃ s, err = .keyError s ∧ s ∈ d.p_open.freeSymbols) := by
  unfold fullySpecified at h
  unfold mkKinetics
  rcases hA : d.alpha with _ | A
  · rw [hA] at h
    rcases hT : d.tauinf with _ | T
    · rw [hT] at h
      exact ⟨.attrError attrMsg, by simp, Or.inl rfl⟩
    · rw [hT] at h
      rcases hV : d.varinf with _ | V
      · rw [hV] at h
        exact ⟨.attrError attrMsg, by simp, Or.inl rfl⟩
      · rw [hV] at h
        dsimp only at h ⊢
        rcases resolveVT_err h with ⟨s, hs, hres, _⟩
        exact ⟨.keyError s, by rw [hres], Or.inr ⟨s, rfl, hs⟩⟩
  · rw [hA] at h
    rcases hB : d.beta with _ | B
    · rw [hB] at h
      rcases hT : d.tauinf with _ | T
      · rw [hT] at h
        exact ⟨.attrError attrMsg, by simp, Or.inl rfl⟩
      · rw [hT] at h
        rcases hV : d.varinf with _ | V
        · rw [hV] at h
          exact ⟨.attrError attrMsg, by simp, Or.inl rfl⟩
        · rw [hV] at h
          dsimp only at h ⊢
          rcases resolveVT_err h with ⟨s, hs, hres, _⟩
          exact ⟨.keyError s, by rw [hres], Or.inr ⟨s, rfl, hs⟩⟩
    · rw [hB] at h
      dsimp only at h ⊢
      rcases resolveRates_err h with ⟨s, hs, hres, _⟩
      exact ⟨.keyError s, by rw [hres], Or.inr ⟨s, rfl, hs⟩⟩

/-- Counterexample to C5 as stated: a definition with state variable `m`
and no kinetics dictionaries at all fails with the fixed `AttributeError`,
which names the missing attribute pairs but no state variable. -/
def incompleteDef : ChanDef := { p_open := .var "m" }

/-- The error raised for `incompleteDef` carries no state-variable name,
although the state variable `m` is among the missing ones. -/
theorem construct_missing_kinetics_unnamed_cex :
    construct incompleteDef = .error (.attrError attrMsg) ∧
    PyError.names (.attrError attrMsg) = [] ∧
    "m" ∈ incompleteDef.p_open.freeSymbols :=
  ⟨rfl, rfl, by decide⟩

/-- C5 as amended: an incomplete definition (with a legal `q10`) always
fails at construction; the error names a missing state variable exactly in
the `KeyError` case — when the chosen attribute pair is present but lacks
an entry — while a definition with neither pair raises the fixed
`AttributeError`, which names the attribute pairs, not the state
variables. -/
theorem construct_incomplete_kinetics_fails (d : ChanDef)
    (hq : d.q10.freeSymbols.length ≤ 1) (h : fullySpecified d = false) :
    ∃ err, construct d = .error err ∧
      (err = .attrError attrMsg ∨
        ∃ s, err = .keyError s ∧ s ∈ d.p_open.freeSymbols) := by
  rcases mkKinetics_err_of_incomplete h with ⟨err, herr, hclass⟩
  refine ⟨err, ?_, hclass⟩
  unfold construct
  rw [if_neg (not_lt.mpr hq)]
  dsimp only
  rw [herr]

/-- Witness for the amended incomplete-definition theorem at the concrete
definition `incompleteDef`. -/
theorem construct_incomplete_kinetics_fails_witness :
    fullySpecified incompleteDef = false ∧
    ∃ err, construct incompleteDef = .error err ∧
      (err = .attrError attrMsg ∨
        ∃ s, err = .keyError s ∧ s ∈ incompleteDef.p_open.freeSymbols) :=
  ⟨rfl, construct_incomplete_kinetics_fails incompleteDef (by decide) rfl⟩

/-- A definition with no recognized ion and no explicit reversal (for C6). -/
def noIonDef : ChanDef :=
  { p_open := .var "x"
    varinf := some [("x", .const 1)]
    tauinf := some [("x", .const 1)]
    conc := some (.dict []) }

/-- C6 (code bug): with no recognized ion and no explicit reversal, the
`except KeyError` handler at source lines 252-256 evaluates
`warnings.warn(...)`, but the module never imports `warnings`, so
construction itself dies with a `NameError` for the unbound name
`warnings`.  The model is therefore not constructible at all, and the
deferred call-time `KeyError` of `_getReversal` is never reached. -/
theorem construct_no_ion_no_e_nameError :
    construct noIonDef = .error (.nameError "warnings") := rfl

/-- C7 amended, frame part: `setDefaultParams` only updates
`default_params`.  The symbolic expressions are untouched — but so is the
whole closure cache, hence numeric evaluations performed after the call
still go through the closures built from the old defaults; new defaults
take effect only after an explicit re-lambdification. -/
theorem setDefaultParams_frame (c : Chan) (kw : List (String × ℚ)) :
    (setDefaultParams kw c).p_open = c.p_open ∧
    (setDefaultParams kw c).fstatevar = c.fstatevar ∧
    (setDefaultParams kw c).varinf = c.varinf ∧
    (setDefaultParams kw c).tauinf = c.tauinf ∧
    (setDefaultParams kw c).f_p_open = c.f_p_open ∧
    (setDefaultParams kw c).f_varinf = c.f_varinf ∧
    (setDefaultParams kw c).f_tauinf = c.f_tauinf ∧
    (setDefaultParams kw c).dp_dx = c.dp_dx ∧
    (setDefaultParams kw c).df_dv = c.df_dv ∧
    (setDefaultParams kw c).df_dx = c.df_dx ∧
    (setDefaultParams kw c).default_params = updateAssoc c.default_params kw ∧
    (∀ (F : String → ℚ → ℚ) (v : ℚ),
      computeVarinf (setDefaultParams kw c) F v = computeVarinf c F v) ∧
    (∀ (F : String → ℚ → ℚ) (v : ℚ),
      computeTauinf (setDefaultParams kw c) F v = computeTauinf c F v) ∧
    (∀ (F : String → ℚ → ℚ) (v : ℚ) (kwargs : List (String × ℚ)),
      computePOpen (setDefaultParams kw c) F v kwargs = computePOpen c F v kwargs) :=
  ⟨rfl, rfl, rfl, rfl, rfl, rfl, rfl, rfl, rfl, rfl, rfl,
   fun _ _ => rfl, fun _ _ => rfl, fun _ _ _ => rfl⟩

/-- A channel whose asymptotic value is the bare temperature symbol, so
that the default temperature is baked into its lambdified closure (for the
C7 counterexample). -/
def tempDef : ChanDef :=
  { p_open := .var "x"
    varinf := some [("x", .var "temp")]
    tauinf := some [("x", .const 1)]
    ion := "na"
    conc := some (.dict []) }

/-- The channel constructed from `tempDef`. -/
def tempChan : Chan :=
  match construct tempDef with
  | .ok c => c
  | .error _ => default

/-- Counterexample to C7 as stated: after `setDefaultParams` sets the
temperature to `0`, `computeVarinf` still returns the value `36` baked into
the stale closure at construction time; only an explicit re-lambdification
makes it return `0`.  The evaluation after the call is therefore not
performed with recomputed closures. -/
theorem setDefaultParams_stale_closure_cex :
    computeVarinf (setDefaultParams [("temp", 0)] tempChan) (fun _ _ => 0) 0 =
      .ok [("x", (36 : ℚ))] ∧
    computeVarinf (lambdifyChannel (setDefaultParams [("temp", 0)] tempChan))
      (fun _ _ => 0) 0 = .ok [("x", (0 : ℚ))] ∧
    (36 : ℚ) ≠ 0 :=
  ⟨rfl, rfl, by norm_num⟩

/-- A concentration-dependent channel (for C4): its asymptotic value is the
calcium concentration itself. -/
def concDef : ChanDef :=
  { p_open := .var "x"
    varinf := some [("x", .var "ca")]
    tauinf := some [("x", .const 1)]
    ion := "ca"
    conc := some (.dict [("ca", mkRat 1 10000)]) }

/-- The channel constructed from `concDef`. -/
def concChan : Chan :=
  match construct concDef with
  | .ok c => c
  | .error _ => default

/-- C4 (code bug): for a channel with a concentration dependency,
`computePOpen` with no overrides raises a `TypeError` instead of using the
stored concentration default — `_argsAsList` calls `self.f_varinf[svar](v)`
with only the voltage although the lambdified closure also expects the
concentration arguments (source lines 308, 328, 358).  A state-variable
override sidesteps the broken default path and is honoured. -/
theorem computePOpen_conc_typeError :
    construct concDef = .ok concChan ∧
    computePOpen concChan (fun _ _ => 0) 0 [] = .error .typeError ∧
    computePOpen concChan (fun _ _ => 0) 0 [("x", mkRat 1 2)] = .ok (mkRat 1 2) :=
  ⟨rfl, rfl, rfl⟩

/-- The accumulation loop of `computeLinear` equals the closed sum of the
claim: over the state variables, `dp_dx * (1000 * df_dv) / (freqs - 1000 *
df_dx)`. -/
lemma linAccum_eq_sum (dv dx : List (String × ℚ)) (freqs : ℚ) :
    ∀ dp : List (String × ℚ),
      linAccum dv dx freqs dp =
        (dp.map (fun t => t.2 * (1000 * lookupQ dv t.1) /
          (freqs - 1000 * lookupQ dx t.1))).sum := by
  intro dp
  induction dp with
  | nil => simp [linAccum]
  | cons hd tl ih =>
    rcases hd with ⟨s, dpv⟩
    simp only [linAccum, List.map_cons, List.sum_cons, ih]
    rw [mul_comm (lookupQ dv s) 1000, mul_comm (lookupQ dx s) 1000]

/-- C8: with an explicit reversal `e`, a scalar voltage and a scalar
frequency, `computeLinSum` returns `(e - v)` times the sum over state
variables of `dp_dx * (1000 * df_dv) / (f - 1000 * df_dx)` — the factor
`1000` being the fixed `1e3` per-millisecond-to-per-second scaling of the
source — minus the open probability. -/
theorem computeLinSum_formula (c : Chan) (F : String → ℚ → ℚ)
    (v f e : ℚ) (kwargs : List (String × ℚ))
    (dp dv dx : List (String × ℚ)) (po : ℚ)
    (hD : computeDerivatives c F v kwargs = .ok (dp, dv, dx))
    (hP : computePOpen c F v kwargs = .ok po) :
    computeLinSum c F v f (some e) kwargs =
      .ok ((e - v) *
        (dp.map (fun t => t.2 * (1000 * lookupQ dv t.1) /
          (f - 1000 * lookupQ dx t.1))).sum - po) := by
  unfold computeLinSum getReversal computeLinear
  rw [hD, hP]
  dsimp only
  rw [linAccum_eq_sum]

/-- A hand-assembled channel whose derivative closures are constants: the
open probability closure returns `1`, `dp_dx` returns `1`, and the two
rate-of-change derivatives return `0` (concrete input for the linearized
current sum). -/
def linChan : Chan :=
  { ion := "na"
    q10 := .const 1
    sp_t := "temp"
    p_open := .var "x"
    statevars := ["x"]
    varinf := [("x", .const 1)]
    tauinf := [("x", .const 1)]
    fstatevar := [("x", .const 0)]
    conc := []
    sp_c := []
    default_params := [("temp", 36), ("e", 50)]
    f_p_open := ⟨["v", "x"], .const 1⟩
    f_statevar := none
    f_varinf := [("x", ⟨["v"], .const 1⟩)]
    f_tauinf := [("x", ⟨["v"], .const 1⟩)]
    dp_dx := [("x", ⟨["v", "x"], .const 1⟩)]
    df_dv := [("x", ⟨["v", "x"], .const 0⟩)]
    df_dx := [("x", ⟨["v", "x"], .const 0⟩)]
    df_dc := [("x", [])] }

/-- Witness for the linearized current sum: at `v = 0`, `f = 1`, `e = 50`
on `linChan`, the formula gives `(50 - 0) * (1 * (1000*0)/(1 - 1000*0)) - 1
= -1`. -/
theorem computeLinSum_formula_witness :
    computeLinSum linChan (fun _ _ => 0) 0 1 (some 50) [] = .ok (-1) := by
  have h := computeLinSum_formula linChan (fun _ _ => 0) 0 1 50 []
    [("x", 1)] [("x", 0)] [("x", 0)] 1 rfl rfl
  rw [h]
  norm_num [lookupQ]

/-- Character-level disequality: a line starting with four spaces and `m_`
differs from the `if(m_instantaneous)` line at index 4. -/
lemma m_prefix_data_ne (l : List Char) :
    ¬ ([' ', ' ', ' ', ' ', 'm', '_'] ++ l =
       [' ', ' ', ' ', ' ', 'i', 'f', '(', 'm', '_', 'i', 'n', 's', 't', 'a',
        'n', 't', 'a', 'n', 'e', 'o', 'u', 's', ')']) := by
  intro h
  have h1 := (List.cons.inj h).2
  have h2 := (List.cons.inj h1).2
  have h3 := (List.cons.inj h2).2
  have h4 := (List.cons.inj h3).2
  have h5 := (List.cons.inj h4).1
  exact absurd h5 (by decide)

/-- No emitted assignment line (they all start with `    m_`) coincides
with the `if(m_instantaneous)` conditional line. -/
lemma m_prefix_ne_ifline (r : String) :
    "    m_" ++ r ≠ "    if(m_instantaneous)" := by
  obtain ⟨l⟩ := r
  intro h
  exact m_prefix_data_ne l (congrArg String.data h)

/-- The method header line differs from the conditional line. -/
lemma void_prefix_ne_ifline (r : String) :
    "void " ++ r ≠ "    if(m_instantaneous)" := by
  obtain ⟨l⟩ := r
  intro h
  have h1 := (List.cons.inj (congrArg String.data h)).1
  exact absurd h1 (by decide)

/-- The closing-brace line differs from the conditional line. -/
lemma closebrace_ne_ifline : ("\x7d" : String) ≠ "    if(m_instantaneous)" := by
  intro h
  have h1 := (List.cons.inj (congrArg String.data h)).1
  exact absurd h1 (by decide)

/-- The per-state-variable emission contains the instantaneous conditional
exactly for the state variable named `m`. -/
lemma statevarTauLines_if_mem (pr : Expr → String) (dps : List (String × ℚ))
    (vL tL : List (String × Expr)) (name : String) :
    "    if(m_instantaneous)" ∈ statevarTauLines pr dps vL tL name ↔
      name = "m" := by
  constructor
  · intro hmem
    by_cases he : name = "m"
    · exact he
    · exfalso
      simp only [statevarTauLines] at hmem
      rw [if_neg he] at hmem
      rcases List.mem_cons.mp hmem with h1 | h1
      · exact m_prefix_ne_ifline _ h1.symm
      · rcases List.mem_cons.mp h1 with h2 | h2
        · exact m_prefix_ne_ifline _ h2.symm
        · simp at h2
  · intro he
    subst he
    simp [statevarTauLines]

/-- C10: in the generated `calcFunStatevar` body the instantaneous
fast path — the `if(m_instantaneous)` conditional setting the time constant
to the printed constant `1e-5` — is emitted for a state variable exactly
when its name is the string `m`; every other state variable receives a
single unconditional time-constant assignment from its printed symbolic
time constant, and the whole method contains the conditional exactly when
`m` is among the state variables. -/
theorem calcFunStatevar_instantaneous_iff (pr : Expr → String) (cname : String)
    (c : Chan) (name : String) :
    ("    if(m_instantaneous)" ∈
        statevarTauLines pr c.default_params c.varinf c.tauinf name ↔
      name = "m") ∧
    (name ≠ "m" → statevarTauLines pr c.default_params c.varinf c.tauinf name =
      ["    m_" ++ (name ++ ("_inf = " ++
        (pr (substituteDefaults c.default_params (lookup0 c.varinf name)) ++ ";"))),
       "    m_" ++ ("tau_" ++ (name ++ (" = " ++
        (pr (substituteDefaults c.default_params (lookup0 c.tauinf name)) ++ ";"))))]) ∧
    ("    if(m_instantaneous)" ∈ calcFunStatevarLines pr cname c ↔
      "m" ∈ c.statevars) := by
  refine ⟨statevarTauLines_if_mem pr c.default_params c.varinf c.tauinf name,
    ?_, ?_⟩
  · intro hne
    simp [statevarTauLines, hne]
  · unfold calcFunStatevarLines
    rw [List.mem_cons]
    constructor
    · intro hmem
      rcases hmem with h1 | h1
      · exact absurd h1.symm (void_prefix_ne_ifline _)
      · rcases List.mem_append.mp h1 with h2 | h2
        · rcases List.mem_flatten.mp h2 with ⟨blk, hblk, hline⟩
          rcases List.mem_map.mp hblk with ⟨nm, hnm, hblkEq⟩
          rw [← hblkEq] at hline
          rw [(statevarTauLines_if_mem pr c.default_params c.varinf c.tauinf nm).mp
            hline] at hnm
          exact hnm
        · rcases List.mem_singleton.mp h2 with h3
          exact absurd h3.symm closebrace_ne_ifline
    · intro hm
      refine Or.inr (List.mem_append.mpr (Or.inl ?_))
      refine List.mem_flatten.mpr
        ⟨statevarTauLines pr c.default_params c.varinf c.tauinf "m",
         List.mem_map.mpr ⟨"m", hm, rfl⟩, ?_⟩
      exact (statevarTauLines_if_mem pr c.default_params c.varinf c.tauinf "m").mpr
        rfl

/-- Witness for the instantaneous-branch theorem: a non-`m` state variable
gets the two unconditional lines, an `m` state variable gets the
conditional. -/
theorem calcFunStatevar_instantaneous_iff_witness :
    statevarTauLines (fun _ => "0") linChan.default_params linChan.varinf
      linChan.tauinf "h" =
      ["    m_" ++ ("h" ++ ("_inf = " ++
        ((fun (_ : Expr) => "0")
          (substituteDefaults linChan.default_params (lookup0 linChan.varinf "h")) ++ ";"))),
       "    m_" ++ ("tau_" ++ ("h" ++ (" = " ++
        ((fun (_ : Expr) => "0")
          (substituteDefaults linChan.default_params (lookup0 linChan.tauinf "h")) ++ ";"))))] ∧
    ("    if(m_instantaneous)" ∈
      statevarTauLines (fun _ => "0") linChan.default_params linChan.varinf
        linChan.tauinf "m") :=
  ⟨((calcFunStatevar_instantaneous_iff (fun _ => "0") "Chan" linChan "h").2.1
      (by decide)),
   ((calcFunStatevar_instantaneous_iff (fun _ => "0") "Chan" linChan "m").1.mpr
      rfl)⟩

/-- C9: for every constructed channel, the generated `setfNewtonConstant`
method opens with a guard comparing `v_size` against exactly the number of
the model's state variables (the free symbols of the open probability),
immediately followed by the `cerr` diagnostic, before the `m_v_<var>`
assignments; a size mismatch is therefore reported rather than silently
ignored. -/
theorem setfNewtonConstant_guard (d : ChanDef) (c : Chan) (cname : String)
    (hc : construct d = .ok c) :
    (setfNewtonConstantLines cname c.statevars).get? 1 =
      some ("    if(v_size != " ++
        (toString d.p_open.freeSymbols.length ++ ")")) ∧
    (setfNewtonConstantLines cname c.statevars).get? 2 = some newtonSizeErrLine ∧
    (setfNewtonConstantLines cname c.statevars).length =
      4 + d.p_open.freeSymbols.length := by
  obtain ⟨kin, concL, eE, hkin, hco, heE, hcEq⟩ := construct_ok hc
  have hst : c.statevars = d.p_open.freeSymbols := by rw [hcEq]; rfl
  rw [hst]
  refine ⟨rfl, rfl, ?_⟩
  simp [setfNewtonConstantLines]
  omega

/-- A two-state-variable channel definition for the generated-code
witnesses. -/
def cppDef : ChanDef :=
  { p_open := .mul (.var "m") (.var "h")
    varinf := some [("m", .const 1), ("h", .const 1)]
    tauinf := some [("m", .const 1), ("h", .const 1)]
    ion := "na"
    conc := some (.dict []) }

/-- The channel constructed from `cppDef`. -/
def cppChan : Chan :=
  match construct cppDef with
  | .ok c => c
  | .error _ => default

/-- Witness for the Newton-constant guard on the two-state-variable
channel. -/
theorem setfNewtonConstant_guard_witness :
    (setfNewtonConstantLines "Chan" cppChan.statevars).get? 1 =
      some ("    if(v_size != " ++
        (toString cppDef.p_open.freeSymbols.length ++ ")")) ∧
    (setfNewtonConstantLines "Chan" cppChan.statevars).get? 2 =
      some newtonSizeErrLine ∧
    (setfNewtonConstantLines "Chan" cppChan.statevars).length =
      4 + cppDef.p_open.freeSymbols.length :=
  setfNewtonConstant_guard cppDef cppChan "Chan" rfl

end Neat
